import Mathlib

/-!
Formal model of the `fns` scripting language core (tokenizer, recursive-descent
parser, environment chain and tree-walking evaluator), shallowly embedded from
the Rust sources (`src/frontend/tokenizer.rs`, `src/frontend/token.rs`,
`src/frontend/utils.rs`, `src/frontend/ast.rs`, `src/frontend/parser.rs`,
`src/runtime/types.rs`, `src/runtime/environment.rs`, `src/runtime/builtin.rs`,
`src/runtime/evaluator.rs`), together with verified properties of the model.

Modelling conventions:
- Rust `String` data (source text, lexemes) is `List Char`; spans count
  characters, matching the tokenizer's `Vec<char>` indexing.
- Rust's `f64` is modelled by the exact rational type `Number` below; IEEE-754
  rounding, NaN and infinities are not modelled (see the comment on `Number`).
- Rust panics (`unwrap` on a failed parse, out-of-bounds indexing) are modelled
  as distinguished `Error` values, since a panic aborts evaluation.
- `&mut Environment` is modelled by explicit state passing: expression and
  statement evaluation return `Except Error Value × Environment`, so the
  environment state at the moment of an error is still visible.
- Unboundedly recursive Rust functions (the tokenizer's scan loop and the
  parser) take an explicit fuel argument; the top-level entry points supply
  fuel that is large enough that exhaustion is unreachable (the tokenizer
  consumes at least one character per step, and the parser consumes at least
  one token for every constant number of nested calls).
-/

namespace Fns

/-- Rust `TextSpan` (`frontend/utils.rs`): a half-open `[startingIndex,
endingIndex)` character-offset interval over the source text. -/
structure TextSpan where
  startingIndex : Nat
  endingIndex : Nat
deriving DecidableEq, Repr

/-- Rust `TextSpan::add`: from the first span's start to the second's end. -/
def TextSpan.add (startingSpan endingSpan : TextSpan) : TextSpan :=
  ⟨startingSpan.startingIndex, endingSpan.endingIndex⟩

/-- Rust `Error` (`frontend/utils.rs`): a message plus a source span. -/
structure Error where
  message : String
  textSpan : TextSpan
deriving DecidableEq, Repr

/-- Rust `TokenKind` (`frontend/token.rs`). Keyword variants are renamed with a
`Kw` suffix to avoid Lean keywords. The provided `token.rs` text does not
contain the `OpenBrace`, `CloseBrace`, `Colon`, `Comma` and `Dot` declarations
although the tokenizer and parser use them; those five variants are modelled
from the spec (single-character punctuation `(` `)` `\x7b` `\x7d` `:` `,` `.`). -/
inductive TokenKind where
  | eof
  | number
  | string
  | identifier
  | letKw
  | constKw
  | trueKw
  | falseKw
  | noneKw
  | openParen
  | closeParen
  | openBrace
  | closeBrace
  | colon
  | comma
  | dot
  | plus
  | minus
  | asterisk
  | slash
  | equal
  | bang
  | ampersand
  | pipe
  | greater
  | lesser
  | doubleAmpersand
  | doublePipe
  | doubleEqual
  | bangEqual
  | greaterOrEqual
  | lesserOrEqual
deriving DecidableEq, Repr

/-- Rust `TokenKind::get_lexeme_type`: classify an identifier-shaped lexeme
against the keyword set, falling back to `Identifier`. -/
def TokenKind.getLexemeType (lexeme : List Char) : TokenKind :=
  if lexeme = "let".toList then .letKw
  else if lexeme = "const".toList then .constKw
  else if lexeme = "true".toList then .trueKw
  else if lexeme = "false".toList then .falseKw
  else if lexeme = "none".toList then .noneKw
  else .identifier

/-- Rust `impl fmt::Display for TokenKind` (`frontend/token.rs`); the five
punctuation variants missing from the provided `token.rs` are modelled from the
spec as their punctuation characters. -/
def TokenKind.display : TokenKind → String
  | .eof => "\x00"
  | .number => "NUMBER"
  | .string => "STRING"
  | .identifier => "IDENTIFIER"
  | .letKw => "let"
  | .constKw => "const"
  | .trueKw => "true"
  | .falseKw => "false"
  | .noneKw => "none"
  | .openParen => "("
  | .closeParen => ")"
  | .openBrace => "\x7b"
  | .closeBrace => "\x7d"
  | .colon => ":"
  | .comma => ","
  | .dot => "."
  | .plus => "+"
  | .minus => "-"
  | .asterisk => "*"
  | .slash => "/"
  | .equal => "="
  | .bang => "!"
  | .ampersand => "&"
  | .pipe => "|"
  | .greater => ">"
  | .lesser => "<"
  | .doubleAmpersand => "&&"
  | .doublePipe => "||"
  | .doubleEqual => "=="
  | .bangEqual => "!="
  | .greaterOrEqual => ">="
  | .lesserOrEqual => "<="

/-- Rust `Token` (`frontend/token.rs`): kind, exact lexeme, span. -/
structure Token where
  kind : TokenKind
  lexeme : List Char
  textSpan : TextSpan
deriving DecidableEq, Repr

/-! ## Numbers

The source declares `type Number = f64` (`frontend/ast.rs`). `Number` below
models a double as an exact rational kept in lowest terms with a nonnegative
denominator, so that arithmetic is kernel-computable. IEEE-754 rounding of
intermediate results, NaN and infinities are not modelled; on the concrete
programs appearing in the theorems of this development the `f64` computations
produce exactly the same final values. -/

/-- Fuel-driven Euclidean gcd (kernel-computable, unlike `Nat.gcd`). The fuel
`x + 1` in `natGcd` is always sufficient since the first argument strictly
decreases. -/
def natGcdF : Nat → Nat → Nat → Nat
  | 0, _, y => y
  | _ + 1, 0, y => y
  | f + 1, x + 1, y => natGcdF f (y % (x + 1)) (x + 1)

/-- Greatest common divisor via `natGcdF`. -/
def natGcd (x y : Nat) : Nat := natGcdF (x + 1) x y

/-- Exact-rational stand-in for the source's `f64` (`type Number = f64`). -/
structure Number where
  num : Int
  den : Nat
deriving DecidableEq, Repr

/-- Construct a `Number` in lowest terms from a numerator and a denominator. -/
def Number.normalize (n : Int) (d : Nat) : Number :=
  let g := natGcd n.natAbs d
  if g = 0 then ⟨0, 1⟩ else ⟨n / (g : Int), d / g⟩

instance (n : Nat) : OfNat Number n := ⟨⟨Int.ofNat n, 1⟩⟩

/-- Addition on `Number` (models `f64` `+` exactly, without rounding). -/
def Number.add (a b : Number) : Number :=
  Number.normalize (a.num * b.den + b.num * a.den) (a.den * b.den)

/-- Subtraction on `Number` (models `f64` `-` exactly, without rounding). -/
def Number.sub (a b : Number) : Number :=
  Number.normalize (a.num * b.den - b.num * a.den) (a.den * b.den)

/-- Multiplication on `Number` (models `f64` `*` exactly, without rounding). -/
def Number.mul (a b : Number) : Number :=
  Number.normalize (a.num * b.num) (a.den * b.den)

/-- Division on `Number` (models `f64` `/` exactly, without rounding; the
evaluator only divides by nonzero values). -/
def Number.div (a b : Number) : Number :=
  if b.num < 0 then Number.normalize (-(a.num * b.den)) (a.den * b.num.natAbs)
  else Number.normalize (a.num * b.den) (a.den * b.num.natAbs)

/-- Negation on `Number` (models `f64` unary `-`). -/
def Number.neg (a : Number) : Number := ⟨-a.num, a.den⟩

/-- Value equality on `Number` (models `f64` `==`; NaN never arises). -/
def Number.beq (a b : Number) : Bool := a.num * b.den == b.num * a.den

/-- Strict order on `Number` (models `f64` `<` on the reachable, finite
values; denominators are nonnegative by construction). -/
def Number.blt (a b : Number) : Bool := a.num * b.den < b.num * a.den

/-- Non-strict order on `Number` (models `f64` `<=`). -/
def Number.ble (a b : Number) : Bool := a.num * b.den ≤ b.num * a.den

/-- Rendering of a `Number` for error messages only. Rust displays an `f64`
with its shortest round-tripping decimal form; this rational rendering only
approximates that and no theorem depends on it. -/
def Number.display (a : Number) : String :=
  if a.den = 1 then toString a.num
  else toString a.num ++ "/" ++ toString a.den

/-! ## Tokenizer (`frontend/tokenizer.rs`) -/

/-- Rust `char::is_alphabetic() || == '_'` as used for identifier starts
(Unicode alphabetic approximated by ASCII `isAlpha`; the claims only involve
ASCII source text). -/
def isIdentStart (c : Char) : Bool := c.isAlpha || c = '_'

/-- Rust `char::is_alphanumeric() || == '_'` as used for identifier
continuation characters. -/
def isIdentCont (c : Char) : Bool := c.isAlphanum || c = '_'

/-- Rust `char::is_ascii_digit() || == '.'` as used for numeric literal
continuation characters. -/
def isNumberCont (c : Char) : Bool := c.isDigit || c = '.'

/-- Rust comment skip condition: scan while not at a newline and not at the
end-of-input sentinel. -/
def isCommentCont (c : Char) : Bool := !(c = '\n') && !(c = '\x00')

/-- The string-literal scan loop of `tokenize`, run on the characters after
the opening quote. `.ok content` returns the characters strictly between the
quotes (the closing quote is consumed); `.error k` reports that the
end-of-input sentinel was hit after scanning `k` content characters
(Rust returns the "Unterminated string" error there). The `[]` case is
unreachable on sentinel-terminated input and is treated as unterminated. -/
def strScan : List Char → Except Nat (List Char)
  | [] => .error 0
  | c :: rest =>
    if c = '"' then .ok []
    else if c = '\x00' then .error 0
    else
      match strScan rest with
      | .ok content => .ok (c :: content)
      | .error k => .error (k + 1)

/-- The scan loop of Rust `tokenize` (`frontend/tokenizer.rs`), one recursive
step per loop iteration. The remaining input is the suffix of the
sentinel-extended source starting at character index `i` (Rust instead keeps
the index into the full `Vec<char>`; at the top of each loop iteration
`starting_index = current_index`, so a single index suffices). `fuel` bounds
the number of iterations; every iteration consumes at least one character, so
the fuel supplied by `tokenize` can never run out. -/
def tokenizeLoop : Nat → List Char → Nat → Except Error (List Token)
  | 0, _, _ => .error ⟨"internal: tokenizer fuel exhausted (unreachable)", ⟨0, 0⟩⟩
  | _ + 1, [], _ => .ok []
  | fuel + 1, c :: rest, i =>
    match c with
    | ' ' | '\t' | '\n' | '\r' => tokenizeLoop fuel rest (i + 1)
    | '\x00' => do
      let ts ← tokenizeLoop fuel rest (i + 1)
      .ok (⟨.eof, ['\x00'], ⟨i, i + 1⟩⟩ :: ts)
    | ':' => do
      let ts ← tokenizeLoop fuel rest (i + 1)
      .ok (⟨.colon, [c], ⟨i, i + 1⟩⟩ :: ts)
    | ',' => do
      let ts ← tokenizeLoop fuel rest (i + 1)
      .ok (⟨.comma, [c], ⟨i, i + 1⟩⟩ :: ts)
    | '.' => do
      let ts ← tokenizeLoop fuel rest (i + 1)
      .ok (⟨.dot, [c], ⟨i, i + 1⟩⟩ :: ts)
    | '(' => do
      let ts ← tokenizeLoop fuel rest (i + 1)
      .ok (⟨.openParen, [c], ⟨i, i + 1⟩⟩ :: ts)
    | ')' => do
      let ts ← tokenizeLoop fuel rest (i + 1)
      .ok (⟨.closeParen, [c], ⟨i, i + 1⟩⟩ :: ts)
    | '{' => do
      let ts ← tokenizeLoop fuel rest (i + 1)
      .ok (⟨.openBrace, [c], ⟨i, i + 1⟩⟩ :: ts)
    | '}' => do
      let ts ← tokenizeLoop fuel rest (i + 1)
      .ok (⟨.closeBrace, [c], ⟨i, i + 1⟩⟩ :: ts)
    | '+' => do
      let ts ← tokenizeLoop fuel rest (i + 1)
      .ok (⟨.plus, [c], ⟨i, i + 1⟩⟩ :: ts)
    | '-' => do
      let ts ← tokenizeLoop fuel rest (i + 1)
      .ok (⟨.minus, [c], ⟨i, i + 1⟩⟩ :: ts)
    | '*' => do
      let ts ← tokenizeLoop fuel rest (i + 1)
      .ok (⟨.asterisk, [c], ⟨i, i + 1⟩⟩ :: ts)
    | '/' =>
      match rest with
      | '/' :: _ =>
        let n := (rest.takeWhile isCommentCont).length
        tokenizeLoop fuel (rest.drop n) (i + 1 + n)
      | _ => do
        let ts ← tokenizeLoop fuel rest (i + 1)
        .ok (⟨.slash, [c], ⟨i, i + 1⟩⟩ :: ts)
    | '&' =>
      match rest with
      | '&' :: rest2 => do
        let ts ← tokenizeLoop fuel rest2 (i + 2)
        .ok (⟨.doubleAmpersand, [c, '&'], ⟨i, i + 2⟩⟩ :: ts)
      | _ => do
        let ts ← tokenizeLoop fuel rest (i + 1)
        .ok (⟨.ampersand, [c], ⟨i, i + 1⟩⟩ :: ts)
    | '|' =>
      match rest with
      | '|' :: rest2 => do
        let ts ← tokenizeLoop fuel rest2 (i + 2)
        .ok (⟨.doublePipe, [c, '|'], ⟨i, i + 2⟩⟩ :: ts)
      | _ => do
        let ts ← tokenizeLoop fuel rest (i + 1)
        .ok (⟨.pipe, [c], ⟨i, i + 1⟩⟩ :: ts)
    | '=' =>
      match rest with
      | '=' :: rest2 => do
        let ts ← tokenizeLoop fuel rest2 (i + 2)
        .ok (⟨.doubleEqual, [c, '='], ⟨i, i + 2⟩⟩ :: ts)
      | _ => do
        let ts ← tokenizeLoop fuel rest (i + 1)
        .ok (⟨.equal, [c], ⟨i, i + 1⟩⟩ :: ts)
    | '!' =>
      match rest with
      | '=' :: rest2 => do
        let ts ← tokenizeLoop fuel rest2 (i + 2)
        .ok (⟨.bangEqual, [c, '='], ⟨i, i + 2⟩⟩ :: ts)
      | _ => do
        let ts ← tokenizeLoop fuel rest (i + 1)
        .ok (⟨.bang, [c], ⟨i, i + 1⟩⟩ :: ts)
    | '>' =>
      match rest with
      | '=' :: rest2 => do
        let ts ← tokenizeLoop fuel rest2 (i + 2)
        .ok (⟨.greaterOrEqual, [c, '='], ⟨i, i + 2⟩⟩ :: ts)
      | _ => do
        let ts ← tokenizeLoop fuel rest (i + 1)
        .ok (⟨.greater, [c], ⟨i, i + 1⟩⟩ :: ts)
    | '<' =>
      match rest with
      | '=' :: rest2 => do
        let ts ← tokenizeLoop fuel rest2 (i + 2)
        .ok (⟨.lesserOrEqual, [c, '='], ⟨i, i + 2⟩⟩ :: ts)
      | _ => do
        let ts ← tokenizeLoop fuel rest (i + 1)
        .ok (⟨.lesser, [c], ⟨i, i + 1⟩⟩ :: ts)
    | '"' =>
      match strScan rest with
      | .ok content => do
        let consumed := content.length + 1
        let ts ← tokenizeLoop fuel (rest.drop consumed) (i + 1 + consumed)
        .ok (⟨.string, content, ⟨i, i + 1 + consumed⟩⟩ :: ts)
      | .error k => .error ⟨"Unterminated string", ⟨i, i + 1 + k⟩⟩
    | _ =>
      if isIdentStart c then
        let run := rest.takeWhile isIdentCont
        let lexeme := c :: run
        do
          let ts ← tokenizeLoop fuel (rest.drop run.length) (i + 1 + run.length)
          .ok (⟨TokenKind.getLexemeType lexeme, lexeme, ⟨i, i + 1 + run.length⟩⟩ :: ts)
      else if c.isDigit then
        let run := rest.takeWhile isNumberCont
        do
          let ts ← tokenizeLoop fuel (rest.drop run.length) (i + 1 + run.length)
          .ok (⟨.number, c :: run, ⟨i, i + 1 + run.length⟩⟩ :: ts)
      else
        .error ⟨"Unexpected character '" ++ String.singleton c ++ "'", ⟨i, i + 1⟩⟩

/-- Rust `tokenize` (`frontend/tokenizer.rs`): append the end-of-input
sentinel `'\x00'` and run the scan loop from index 0. The fuel
`length + 2` can never be exhausted since every iteration consumes at least
one of the `length + 1` characters. -/
def tokenize (sourceCode : List Char) : Except Error (List Token) :=
  tokenizeLoop (sourceCode.length + 2) (sourceCode ++ ['\x00']) 0

/-! ## Abstract syntax tree (`frontend/ast.rs`) -/

/-- Rust `Expression` and its node structs (`frontend/ast.rs`), flattened into
one inductive: each constructor carries exactly the fields of the
corresponding Rust struct (`KeyValuePair` is the pair of its key token and
value expression). The provided `ast.rs` text does not contain the
`AccessExpression` declaration although the parser and evaluator use it; the
`access` constructor is modelled from the spec: "property-access owns an
object expression and a property-name token". -/
inductive Expression where
  | noneLit (noneTok : Token)
  | boolean (booleanTok : Token) (value : Bool)
  | numeric (numberTok : Token) (value : Number)
  | stringLit (stringTok : Token) (value : List Char)
  | object (openBrace : Token) (pairs : List (Token × Expression)) (closeBrace : Token)
  | identifier (identifierTok : Token)
  | access (obj : Expression) (property : Token)
  | unary (operator : Token) (right : Expression)
  | binary (left : Expression) (operator : Token) (right : Expression)
  | assignment (identifierTok : Token) (expression : Expression)

/-- Rust `Expression::text_span` and the per-node `text_span` methods
(`frontend/ast.rs`). The `access` case is modelled from the spec invariant
that a node's span covers its children's spans. -/
def Expression.textSpan : Expression → TextSpan
  | .noneLit t => t.textSpan
  | .boolean t _ => t.textSpan
  | .numeric t _ => t.textSpan
  | .stringLit t _ => t.textSpan
  | .object ob _ cb => TextSpan.add ob.textSpan cb.textSpan
  | .identifier t => t.textSpan
  | .access o p => TextSpan.add o.textSpan p.textSpan
  | .unary op r => TextSpan.add op.textSpan r.textSpan
  | .binary l _ r => TextSpan.add l.textSpan r.textSpan
  | .assignment t e => TextSpan.add t.textSpan e.textSpan

/-- Rust `Statement` (`frontend/ast.rs`): `Let`, `Const` or a bare
expression statement. -/
inductive Statement where
  | letStmt (keyword identifierTok : Token) (expression : Expression)
  | constStmt (keyword identifierTok : Token) (expression : Expression)
  | exprStmt (expression : Expression)

/-- Rust `type Program = Vec<Statement>`. -/
def Program := List Statement

/-! ## Parser (`frontend/parser.rs`) -/

/-- Decimal digits to a natural number. -/
def digitsToNat (l : List Char) : Nat :=
  l.foldl (fun acc c => acc * 10 + (c.toNat - '0'.toNat)) 0

/-- Models Rust `str::parse::<f64>()` as invoked by
`parse_primary_expression` on a `Number` token's lexeme. Rust's float grammar
accepts a lexeme made of digits and `.` characters exactly when it contains at
most one `.`; the produced value is modelled as the exact decimal rational
(the rounding to the nearest double is not modelled). `Option.none` models
`Err`, on which the Rust code's `.unwrap()` panics. -/
def parseNumberValue (lexeme : List Char) : Option Number :=
  match lexeme.splitOn '.' with
  | [ip] =>
    if !ip.isEmpty && ip.all Char.isDigit then
      some (Number.normalize (digitsToNat ip) 1)
    else Option.none
  | [ip, fp] =>
    if !ip.isEmpty && ip.all Char.isDigit && fp.all Char.isDigit then
      some (Number.normalize (digitsToNat ip * 10 ^ fp.length + digitsToNat fp) (10 ^ fp.length))
    else Option.none
  | _ => Option.none

/-- Error used to model a Rust panic from out-of-bounds token indexing
(`tokens[current_token_index]`). Unreachable on tokenizer output, which always
ends with an `Eof` token. -/
def indexFailure : Error := ⟨"panic: token index out of range", ⟨0, 0⟩⟩

/-- Error used to model the Rust panic from
`tokens[i].lexeme.parse().unwrap()` when a numeric lexeme is rejected by
float parsing. -/
def unwrapFailure : Error :=
  ⟨"panic: numeric lexeme rejected by float parsing", ⟨0, 0⟩⟩

/-- Error returned when a fuel counter reaches zero. The fuel supplied by
`parse` is large enough that this is unreachable. -/
def fuelExhausted : Error :=
  ⟨"internal: parser fuel exhausted (unreachable for the supplied fuel)", ⟨0, 0⟩⟩

/-- Rust `tokens[i]` (panics when out of range; see `indexFailure`). -/
def getToken (tokens : List Token) (i : Nat) : Except Error Token :=
  match tokens.get? i with
  | some t => .ok t
  | Option.none => .error indexFailure

/-- Rust `token_matches` (`frontend/parser.rs`). -/
def tokenMatches (tokenKind : TokenKind) (expectedToBeIn : List TokenKind) : Bool :=
  expectedToBeIn.contains tokenKind

/-- Rust `expect_to_match` (`frontend/parser.rs`): return the current token
and advance if its kind matches, otherwise fail with "Unexpected token". -/
def expectToMatch (tokens : List Token) (i : Nat) (expected : TokenKind) :
    Except Error (Token × Nat) := do
  let t ← getToken tokens i
  if t.kind = expected then
    .ok (t, i + 1)
  else
    .error ⟨"Unexpected token '" ++ String.mk t.lexeme ++ "', expected '" ++
      expected.display ++ "'", t.textSpan⟩

/-- Rust `eat_token` (`frontend/parser.rs`). -/
def eatToken (tokens : List Token) (i : Nat) : Except Error (Token × Nat) := do
  let t ← getToken tokens i
  .ok (t, i + 1)

mutual

/-- Rust `parse_statement`: dispatch on the current token's kind. -/
def parseStatement (fuel : Nat) (tokens : List Token) (i : Nat) :
    Except Error (Statement × Nat) :=
  match fuel with
  | 0 => .error fuelExhausted
  | fuel + 1 => do
    let t ← getToken tokens i
    match t.kind with
    | .letKw => parseLetStatement fuel tokens i
    | .constKw => parseConstStatement fuel tokens i
    | _ => do
      let (e, j) ← parseExpression fuel tokens i
      .ok (.exprStmt e, j)

/-- Rust `parse_let_statement`: `let` keyword, identifier, `=`, expression. -/
def parseLetStatement (fuel : Nat) (tokens : List Token) (i : Nat) :
    Except Error (Statement × Nat) :=
  match fuel with
  | 0 => .error fuelExhausted
  | fuel + 1 => do
    let (keyword, i1) ← expectToMatch tokens i .letKw
    let (ident, i2) ← expectToMatch tokens i1 .identifier
    let (_, i3) ← expectToMatch tokens i2 .equal
    let (e, i4) ← parseExpression fuel tokens i3
    .ok (.letStmt keyword ident e, i4)

/-- Rust `parse_const_statement`: `const` keyword, identifier, `=`,
expression. -/
def parseConstStatement (fuel : Nat) (tokens : List Token) (i : Nat) :
    Except Error (Statement × Nat) :=
  match fuel with
  | 0 => .error fuelExhausted
  | fuel + 1 => do
    let (keyword, i1) ← expectToMatch tokens i .constKw
    let (ident, i2) ← expectToMatch tokens i1 .identifier
    let (_, i3) ← expectToMatch tokens i2 .equal
    let (e, i4) ← parseExpression fuel tokens i3
    .ok (.constStmt keyword ident e, i4)

/-- Rust `parse_expression`: delegates to the assignment level. -/
def parseExpression (fuel : Nat) (tokens : List Token) (i : Nat) :
    Except Error (Expression × Nat) :=
  match fuel with
  | 0 => .error fuelExhausted
  | fuel + 1 => parseAssignmentExpression fuel tokens i
termination_by structural fuel

/-- Rust `parse_assignment_expression`: recognized only when the next two
tokens are literally an identifier then `=` (with a bounds check on the
second); right-associative via self-recursion on the right-hand side. -/
def parseAssignmentExpression (fuel : Nat) (tokens : List Token) (i : Nat) :
    Except Error (Expression × Nat) :=
  match fuel with
  | 0 => .error fuelExhausted
  | fuel + 1 =>
    match tokens.get? i, tokens.get? (i + 1) with
    | some t0, some t1 =>
      if t0.kind = .identifier ∧ t1.kind = .equal then do
        let (ident, i1) ← expectToMatch tokens i .identifier
        let (_, i2) ← expectToMatch tokens i1 .equal
        let (e, i3) ← parseAssignmentExpression fuel tokens i2
        .ok (.assignment ident e, i3)
      else
        parseBinaryExpression fuel tokens i
    | _, _ => parseBinaryExpression fuel tokens i
termination_by structural fuel

/-- Rust `parse_binary_expression`: delegates to the logical level. -/
def parseBinaryExpression (fuel : Nat) (tokens : List Token) (i : Nat) :
    Except Error (Expression × Nat) :=
  match fuel with
  | 0 => .error fuelExhausted
  | fuel + 1 => parseBinaryLogicalExpression fuel tokens i
termination_by structural fuel

/-- Rust `parse_binary_logical_expression`: parse the equality level, then
run the operator loop for `&&`/`||`. -/
def parseBinaryLogicalExpression (fuel : Nat) (tokens : List Token) (i : Nat) :
    Except Error (Expression × Nat) :=
  match fuel with
  | 0 => .error fuelExhausted
  | fuel + 1 => do
    let (left, i1) ← parseBinaryEqualityExpression fuel tokens i
    parseBinaryLogicalLoop fuel tokens left i1
termination_by structural fuel

/-- The `while` loop of `parse_binary_logical_expression`: on a `&&`/`||`
token, recurse into the same level for the right operand (the source of the
language's right-associativity) and continue the loop. -/
def parseBinaryLogicalLoop (fuel : Nat) (tokens : List Token) (left : Expression)
    (i : Nat) : Except Error (Expression × Nat) :=
  match fuel with
  | 0 => .error fuelExhausted
  | fuel + 1 => do
    let t ← getToken tokens i
    if tokenMatches t.kind [.doubleAmpersand, .doublePipe] then do
      let (right, i1) ← parseBinaryLogicalExpression fuel tokens (i + 1)
      parseBinaryLogicalLoop fuel tokens (.binary left t right) i1
    else
      .ok (left, i)
termination_by structural fuel

/-- Rust `parse_binary_equality_expression`: comparison level plus the
operator loop for `==`/`!=`. -/
def parseBinaryEqualityExpression (fuel : Nat) (tokens : List Token) (i : Nat) :
    Except Error (Expression × Nat) :=
  match fuel with
  | 0 => .error fuelExhausted
  | fuel + 1 => do
    let (left, i1) ← parseBinaryComparisonExpression fuel tokens i
    parseBinaryEqualityLoop fuel tokens left i1
termination_by structural fuel

/-- The `while` loop of `parse_binary_equality_expression` (right recursion
into its own level). -/
def parseBinaryEqualityLoop (fuel : Nat) (tokens : List Token) (left : Expression)
    (i : Nat) : Except Error (Expression × Nat) :=
  match fuel with
  | 0 => .error fuelExhausted
  | fuel + 1 => do
    let t ← getToken tokens i
    if tokenMatches t.kind [.doubleEqual, .bangEqual] then do
      let (right, i1) ← parseBinaryEqualityExpression fuel tokens (i + 1)
      parseBinaryEqualityLoop fuel tokens (.binary left t right) i1
    else
      .ok (left, i)
termination_by structural fuel

/-- Rust `parse_binary_comparison_expression`: additive level plus the
operator loop for `>` `<` `>=` `<=`. -/
def parseBinaryComparisonExpression (fuel : Nat) (tokens : List Token) (i : Nat) :
    Except Error (Expression × Nat) :=
  match fuel with
  | 0 => .error fuelExhausted
  | fuel + 1 => do
    let (left, i1) ← parseBinaryAdditiveExpression fuel tokens i
    parseBinaryComparisonLoop fuel tokens left i1
termination_by structural fuel

/-- The `while` loop of `parse_binary_comparison_expression` (right recursion
into its own level). -/
def parseBinaryComparisonLoop (fuel : Nat) (tokens : List Token) (left : Expression)
    (i : Nat) : Except Error (Expression × Nat) :=
  match fuel with
  | 0 => .error fuelExhausted
  | fuel + 1 => do
    let t ← getToken tokens i
    if tokenMatches t.kind [.greater, .lesser, .greaterOrEqual, .lesserOrEqual] then do
      let (right, i1) ← parseBinaryComparisonExpression fuel tokens (i + 1)
      parseBinaryComparisonLoop fuel tokens (.binary left t right) i1
    else
      .ok (left, i)
termination_by structural fuel

/-- Rust `parse_binary_additive_expression`: multiplicative level plus the
operator loop for `+`/`-`. -/
def parseBinaryAdditiveExpression (fuel : Nat) (tokens : List Token) (i : Nat) :
    Except Error (Expression × Nat) :=
  match fuel with
  | 0 => .error fuelExhausted
  | fuel + 1 => do
    let (left, i1) ← parseBinaryMultiplicativeExpression fuel tokens i
    parseBinaryAdditiveLoop fuel tokens left i1
termination_by structural fuel

/-- The `while` loop of `parse_binary_additive_expression` (right recursion
into its own level). -/
def parseBinaryAdditiveLoop (fuel : Nat) (tokens : List Token) (left : Expression)
    (i : Nat) : Except Error (Expression × Nat) :=
  match fuel with
  | 0 => .error fuelExhausted
  | fuel + 1 => do
    let t ← getToken tokens i
    if tokenMatches t.kind [.plus, .minus] then do
      let (right, i1) ← parseBinaryAdditiveExpression fuel tokens (i + 1)
      parseBinaryAdditiveLoop fuel tokens (.binary left t right) i1
    else
      .ok (left, i)
termination_by structural fuel

/-- Rust `parse_binary_multiplicative_expression`: unary level plus the
operator loop for `*`/`/`. -/
def parseBinaryMultiplicativeExpression (fuel : Nat) (tokens : List Token) (i : Nat) :
    Except Error (Expression × Nat) :=
  match fuel with
  | 0 => .error fuelExhausted
  | fuel + 1 => do
    let (left, i1) ← parseUnaryExpression fuel tokens i
    parseBinaryMultiplicativeLoop fuel tokens left i1
termination_by structural fuel

/-- The `while` loop of `parse_binary_multiplicative_expression` (right
recursion into its own level). -/
def parseBinaryMultiplicativeLoop (fuel : Nat) (tokens : List Token) (left : Expression)
    (i : Nat) : Except Error (Expression × Nat) :=
  match fuel with
  | 0 => .error fuelExhausted
  | fuel + 1 => do
    let t ← getToken tokens i
    if tokenMatches t.kind [.asterisk, .slash] then do
      let (right, i1) ← parseBinaryMultiplicativeExpression fuel tokens (i + 1)
      parseBinaryMultiplicativeLoop fuel tokens (.binary left t right) i1
    else
      .ok (left, i)
termination_by structural fuel

/-- Rust `parse_unary_expression`: right-associative prefix `!` `+` `-`. -/
def parseUnaryExpression (fuel : Nat) (tokens : List Token) (i : Nat) :
    Except Error (Expression × Nat) :=
  match fuel with
  | 0 => .error fuelExhausted
  | fuel + 1 => do
    let t ← getToken tokens i
    if tokenMatches t.kind [.bang, .plus, .minus] then do
      let (operator, i1) ← eatToken tokens i
      let (right, i2) ← parseUnaryExpression fuel tokens i1
      .ok (.unary operator right, i2)
    else
      parsePrimaryExpression fuel tokens i
termination_by structural fuel

/-- Rust `parse_primary_expression`: parenthesized expression, literals,
object literal, identifier (with one-token lookahead for `.` property
access), otherwise "Unexpected token". -/
def parsePrimaryExpression (fuel : Nat) (tokens : List Token) (i : Nat) :
    Except Error (Expression × Nat) :=
  match fuel with
  | 0 => .error fuelExhausted
  | fuel + 1 => do
    let t ← getToken tokens i
    match t.kind with
    | .openParen => do
      let (_, i1) ← expectToMatch tokens i .openParen
      let (e, i2) ← parseExpression fuel tokens i1
      let (_, i3) ← expectToMatch tokens i2 .closeParen
      .ok (e, i3)
    | .noneKw => .ok (.noneLit t, i + 1)
    | .trueKw => .ok (.boolean t true, i + 1)
    | .falseKw => .ok (.boolean t false, i + 1)
    | .number =>
      match parseNumberValue t.lexeme with
      | some v => .ok (.numeric t v, i + 1)
      | Option.none => .error unwrapFailure
    | .string => .ok (.stringLit t t.lexeme, i + 1)
    | .openBrace => do
      let (openBrace, i1) ← expectToMatch tokens i .openBrace
      let t1 ← getToken tokens i1
      if t1.kind = .closeBrace then do
        let (closeBrace, i2) ← expectToMatch tokens i1 .closeBrace
        .ok (.object openBrace [] closeBrace, i2)
      else do
        let (pairs, g) ← parseObjectPairsLoop fuel tokens i1
        let (closeBrace, i2) ← expectToMatch tokens g .closeBrace
        .ok (.object openBrace pairs closeBrace, i2)
    | .identifier =>
      match tokens.get? (i + 1) with
      | some t1 =>
        if t1.kind = .dot then do
          let (objTok, i1) ← expectToMatch tokens i .identifier
          let (_, i2) ← expectToMatch tokens i1 .dot
          let (property, i3) ← expectToMatch tokens i2 .identifier
          .ok (.access (.identifier objTok) property, i3)
        else
          .ok (.identifier t, i + 1)
      | Option.none => .ok (.identifier t, i + 1)
    | _ =>
      .error ⟨"Unexpected token '" ++ String.mk t.lexeme ++ "'", t.textSpan⟩
termination_by structural fuel

/-- The object-literal pair loop of `parse_primary_expression`, entered only
when the token after `\x7b` is not `\x7d`. Rust's `while` condition re-checks
the token at the fixed position just after the opening brace, so once entered
the loop only exits through its `break` (next token is `\x7d`) or through the
comma mismatch error; this embedding reproduces exactly that exit behavior. -/
def parseObjectPairsLoop (fuel : Nat) (tokens : List Token) (i : Nat) :
    Except Error (List (Token × Expression) × Nat) :=
  match fuel with
  | 0 => .error fuelExhausted
  | fuel + 1 => do
    let (pair, i1) ← parseKeyValuePair fuel tokens i
    let t ← getToken tokens i1
    if t.kind = .closeBrace then
      .ok ([pair], i1)
    else do
      let (_, i2) ← expectToMatch tokens i1 .comma
      let (rest, g) ← parseObjectPairsLoop fuel tokens i2
      .ok (pair :: rest, g)
termination_by structural fuel

/-- Rust `parse_key_value_pair`: identifier, `:`, expression. -/
def parseKeyValuePair (fuel : Nat) (tokens : List Token) (i : Nat) :
    Except Error ((Token × Expression) × Nat) :=
  match fuel with
  | 0 => .error fuelExhausted
  | fuel + 1 => do
    let (key, i1) ← expectToMatch tokens i .identifier
    let (_, i2) ← expectToMatch tokens i1 .colon
    let (value, i3) ← parseExpression fuel tokens i2
    .ok ((key, value), i3)

termination_by structural fuel
end

/-- Fuel supplied per statement: the Rust parser performs at most a constant
number of nested calls (bounded by its fixed tower of precedence levels, ≤ 12)
between two token consumptions, so this bound is never exhausted. -/
def parserFuel (tokens : List Token) : Nat := 16 * tokens.length + 16

/-- The statement loop of Rust `parse` (`frontend/parser.rs`): parse
statements until the index reaches the end or an `Eof` token. Its fuel is
`tokens.length + 1`, sufficient since every parsed statement consumes at
least one token. -/
def parseLoop : Nat → List Token → Nat → Except Error (List Statement)
  | 0, _, _ => .error fuelExhausted
  | fuel + 1, tokens, i =>
    if i < tokens.length then do
      let t ← getToken tokens i
      if t.kind = .eof then
        .ok []
      else do
        let (st, j) ← parseStatement (parserFuel tokens) tokens i
        let rest ← parseLoop fuel tokens j
        .ok (st :: rest)
    else
      .ok []

/-- Rust `parse` (`frontend/parser.rs`). -/
def parse (tokens : List Token) : Except Error Program :=
  parseLoop (tokens.length + 1) tokens 0

/-! ## Runtime values (`runtime/types.rs`)

Rust's `HashMap<String, _>` maps (object values and environment frames) are
modelled as association lists with insert-or-overwrite and first-match lookup;
this preserves exactly the observable map operations the source uses
(`insert`, `get`, `FromIterator` with later duplicates overwriting, and
key-set based equality). -/

/-- Rust `Value` (`runtime/types.rs`): none, boolean, number, string, or an
object mapping string keys to values. -/
inductive Value where
  | object (pairs : List (List Char × Value))
  | stringV (s : List Char)
  | number (n : Number)
  | boolean (b : Bool)
  | noneV

/-- Rust `HashMap::get`: first-match association-list lookup. -/
def mapGet {α : Type} : List (List Char × α) → List Char → Option α
  | [], _ => Option.none
  | (k, v) :: rest, key => if k = key then some v else mapGet rest key

/-- Rust `HashMap::insert`: overwrite the binding of the key if present,
otherwise add one. -/
def mapInsert {α : Type} : List (List Char × α) → List Char → α → List (List Char × α)
  | [], key, v => [(key, v)]
  | (k, w) :: rest, key, v =>
    if k = key then (key, v) :: rest else (k, w) :: mapInsert rest key v

/-- Rust `HashMap::from_iter`: build a map by inserting the pairs in order,
so a later duplicate key overwrites an earlier one. -/
def mapFromPairs {α : Type} (pairs : List (List Char × α)) : List (List Char × α) :=
  pairs.foldl (fun m kv => mapInsert m kv.1 kv.2) []

mutual

/-- Rust `PartialEq` on `Value` (derived structural equality; `f64` compares
by value, `HashMap` equality compares key-value sets). -/
def valueBeq : Value → Value → Bool
  | .object a, .object b => a.length == b.length && pairsSubset a b
  | .stringV a, .stringV b => a == b
  | .number a, .number b => Number.beq a b
  | .boolean a, .boolean b => a == b
  | .noneV, .noneV => true
  | _, _ => false

/-- Containment of one object's pairs in another, by key lookup (one half of
`HashMap` equality; with the length check it is the whole of it, since the
maps built by this model have distinct keys). -/
def pairsSubset : List (List Char × Value) → List (List Char × Value) → Bool
  | [], _ => true
  | (k, v) :: rest, b =>
    (match mapGet b k with
     | some w => valueBeq v w
     | Option.none => false) && pairsSubset rest b

end

mutual

/-- Rust `impl fmt::Display for Value` (`runtime/types.rs`), used only inside
error messages. Numbers render via `Number.display`, which only approximates
Rust's shortest-round-trip `f64` formatting; no theorem depends on these
strings. -/
def Value.display : Value → String
  | .object o =>
    if o.isEmpty then "\x7b\x7d"
    else "\x7b\n" ++ displayPairs o ++ "\x7d"
  | .stringV s => String.mk s
  | .number n => n.display
  | .boolean b => if b then "true" else "false"
  | .noneV => "none"

/-- One `  key : value` line per object entry (the loop inside `Display` for
`Value::Object`). -/
def displayPairs : List (List Char × Value) → String
  | [] => ""
  | (k, v) :: rest => "  " ++ String.mk k ++ " : " ++ v.display ++ "\n" ++ displayPairs rest

end

/-! ## Builtins and environment (`runtime/builtin.rs`, `runtime/environment.rs`) -/

/-- Exact rational value of the IEEE-754 double `std::f64::consts::PI`. -/
def f64PI : Number := ⟨884279719003555, 281474976710656⟩

/-- Exact rational value of the IEEE-754 double `std::f64::consts::E`. -/
def f64E : Number := ⟨6121026514868073, 2251799813685248⟩

/-- Rust `get_builtin` (`runtime/builtin.rs`): the `fns` metadata object and
the `math` constants object. -/
def getBuiltin : List (List Char × Value) :=
  [("fns".toList, Value.object (mapFromPairs
      [("version".toList, Value.stringV "0.0.1".toList)])),
   ("math".toList, Value.object (mapFromPairs
      [("pi".toList, Value.number f64PI), ("e".toList, Value.number f64E)]))]

/-- The variables map with which `Environment::new` seeds every frame: each
builtin binding, marked constant. -/
def builtinVariables : List (List Char × (Value × Bool)) :=
  mapFromPairs (getBuiltin.map (fun kv => (kv.1, (kv.2, true))))

/-- Rust `Environment` (`runtime/environment.rs`): a frame of variables with
an optional parent (`parent: Box<Option<Self>>`), here split into a `root`
and a `child` constructor for direct structural recursion. -/
inductive Environment where
  | root (vars : List (List Char × (Value × Bool)))
  | child (parent : Environment) (vars : List (List Char × (Value × Bool)))

/-- The `variables` field of a frame. -/
def Environment.vars : Environment → List (List Char × (Value × Bool))
  | .root vs => vs
  | .child _ vs => vs

/-- The `parent` field of a frame. -/
def Environment.parent : Environment → Option Environment
  | .root _ => Option.none
  | .child p _ => some p

/-- Rust `Environment::new`: a fresh frame over the optional parent, its
variables seeded with the builtin bindings marked constant. -/
def Environment.new (parent : Option Environment) : Environment :=
  match parent with
  | some p => .child p builtinVariables
  | Option.none => .root builtinVariables

/-- Rust `Environment::define`: insert-or-overwrite in the current frame. -/
def Environment.define (env : Environment) (identifier : List Char) (value : Value)
    (isConstant : Bool) : Environment :=
  match env with
  | .root vs => .root (mapInsert vs identifier (value, isConstant))
  | .child p vs => .child p (mapInsert vs identifier (value, isConstant))

/-- Rust `Environment::is_constant`: search the current frame, then the
parent chain. -/
def Environment.isConstant : Environment → List Char → Option Bool
  | .root vs, identifier => (mapGet vs identifier).map Prod.snd
  | .child p vs, identifier =>
    match mapGet vs identifier with
    | some (_, c) => some c
    | Option.none => p.isConstant identifier

/-- Rust `Environment::access`: search the current frame, then the parent
chain. -/
def Environment.access : Environment → List Char → Option Value
  | .root vs, identifier => (mapGet vs identifier).map Prod.fst
  | .child p vs, identifier =>
    match mapGet vs identifier with
    | some (v, _) => some v
    | Option.none => p.access identifier

/-! ## Evaluator (`runtime/evaluator.rs`)

Rust threads `&mut Environment` through evaluation; this model passes the
environment explicitly and always returns it, so `(.error e, env)` is a
failure with the environment in the state it had when the failure occurred
(the Rust caller of a failed evaluation observes exactly that state). -/

mutual

/-- Rust `evaluate_expression` (`runtime/evaluator.rs`), with the match arms
in source order. -/
def evaluateExpression : Expression → Environment → Except Error Value × Environment
  | .noneLit _, env => (.ok .noneV, env)
  | .boolean _ b, env => (.ok (.boolean b), env)
  | .numeric _ n, env => (.ok (.number n), env)
  | .stringLit _ s, env => (.ok (.stringV s), env)
  | .object _ pairs _, env =>
    match evaluatePairs pairs env with
    | (.ok pvs, env1) => (.ok (.object (mapFromPairs pvs)), env1)
    | (.error e, env1) => (.error e, env1)
  | .access obj property, env =>
    match evaluateExpression obj env with
    | (.ok value, env1) =>
      match value with
      | .object o =>
        match mapGet o property.lexeme with
        | some w => (.ok w, env1)
        | Option.none =>
          (.error ⟨"Can't access the property '" ++ String.mk property.lexeme ++
            "' as it's not defined", (Expression.access obj property).textSpan⟩, env1)
      | v =>
        (.error ⟨"Can't access property of '" ++ v.display ++
          "' as it's not accessible", (Expression.access obj property).textSpan⟩, env1)
    | (.error e, env1) => (.error e, env1)
  | .identifier it, env =>
    match env.access it.lexeme with
    | some v => (.ok v, env)
    | Option.none =>
      (.error ⟨"Can't access the variable '" ++ String.mk it.lexeme ++
        "' as it's not defined", (Expression.identifier it).textSpan⟩, env)
  | .unary operator r, env =>
    match evaluateExpression r env with
    | (.ok right, env1) =>
      match operator.kind, right with
      | .bang, .boolean a => (.ok (.boolean (!a)), env1)
      | .plus, .number a => (.ok (.number a), env1)
      | .minus, .number a => (.ok (.number a.neg), env1)
      | k, v =>
        (.error ⟨"Can't use '" ++ k.display ++ "' with '" ++ v.display ++ "'",
          (Expression.unary operator r).textSpan⟩, env1)
    | (.error e, env1) => (.error e, env1)
  | .binary l operator r, env =>
    match evaluateExpression l env with
    | (.ok left, env1) =>
      match evaluateExpression r env1 with
      | (.ok right, env2) =>
        match operator.kind, left, right with
        | .plus, .stringV a, .stringV b => (.ok (.stringV (a ++ b)), env2)
        | .plus, .number a, .number b => (.ok (.number (a.add b)), env2)
        | .minus, .number a, .number b => (.ok (.number (a.sub b)), env2)
        | .asterisk, .number a, .number b => (.ok (.number (a.mul b)), env2)
        | .slash, .number a, .number b =>
          if Number.beq b 0 then
            (.error ⟨"Can't divide by 0", (Expression.binary l operator r).textSpan⟩, env2)
          else
            (.ok (.number (a.div b)), env2)
        | .greater, .number a, .number b => (.ok (.boolean (Number.blt b a)), env2)
        | .lesser, .number a, .number b => (.ok (.boolean (Number.blt a b)), env2)
        | .greaterOrEqual, .number a, .number b => (.ok (.boolean (Number.ble b a)), env2)
        | .lesserOrEqual, .number a, .number b => (.ok (.boolean (Number.ble a b)), env2)
        | .bangEqual, a, b => (.ok (.boolean (!valueBeq a b)), env2)
        | .doubleEqual, a, b => (.ok (.boolean (valueBeq a b)), env2)
        | .doubleAmpersand, .boolean a, .boolean b => (.ok (.boolean (a && b)), env2)
        | .doublePipe, .boolean a, .boolean b => (.ok (.boolean (a || b)), env2)
        | k, a, b =>
          (.error ⟨"Can't use '" ++ k.display ++ "' with '" ++ a.display ++
            "' and '" ++ b.display ++ "'", (Expression.binary l operator r).textSpan⟩, env2)
      | (.error e, env2) => (.error e, env2)
    | (.error e, env1) => (.error e, env1)
  | .assignment it e, env =>
    match env.isConstant it.lexeme with
    | some true =>
      (.error ⟨"Can't assign the variable '" ++ String.mk it.lexeme ++
        "' as it's a constant", (Expression.assignment it e).textSpan⟩, env)
    | some false =>
      match evaluateExpression e env with
      | (.ok value, env1) => (.ok value, env1.define it.lexeme value false)
      | (.error er, env1) => (.error er, env1)
    | Option.none =>
      (.error ⟨"Can't assign to the variable '" ++ String.mk it.lexeme ++
        "' as it's not defined", (Expression.assignment it e).textSpan⟩, env)

/-- The pair loop inside the `Expression::Object` arm of
`evaluate_expression`: evaluate each pair's value expression in order,
collecting `(key lexeme, value)` pairs. -/
def evaluatePairs : List (Token × Expression) → Environment →
    Except Error (List (List Char × Value)) × Environment
  | [], env => (.ok [], env)
  | (key, ve) :: rest, env =>
    match evaluateExpression ve env with
    | (.ok v, env1) =>
      match evaluatePairs rest env1 with
      | (.ok pvs, env2) => (.ok ((key.lexeme, v) :: pvs), env2)
      | (.error e, env2) => (.error e, env2)
    | (.error e, env1) => (.error e, env1)

end

/-- Rust `evaluate_statement` (`runtime/evaluator.rs`): `let` and `const`
bindings evaluate their expression, define the identifier (mutable or
constant) in the current frame and yield `None`; an expression statement
yields its value. -/
def evaluateStatement : Statement → Environment → Except Error Value × Environment
  | .letStmt _ identifierTok e, env =>
    match evaluateExpression e env with
    | (.ok v, env1) => (.ok .noneV, env1.define identifierTok.lexeme v false)
    | (.error er, env1) => (.error er, env1)
  | .constStmt _ identifierTok e, env =>
    match evaluateExpression e env with
    | (.ok v, env1) => (.ok .noneV, env1.define identifierTok.lexeme v true)
    | (.error er, env1) => (.error er, env1)
  | .exprStmt e, env => evaluateExpression e env

/-- The statement loop of Rust `evaluate`: starting from the initial `None`
value, run each statement in turn, keeping the last value; the first failing
statement aborts the loop. -/
def evaluateProgramLoop : List Statement → Value → Environment →
    Except Error Value × Environment
  | [], v, env => (.ok v, env)
  | s :: rest, _, env =>
    match evaluateStatement s env with
    | (.ok v, env1) => evaluateProgramLoop rest v env1
    | (.error e, env1) => (.error e, env1)

/-- Rust `evaluate` (`runtime/evaluator.rs`): create one fresh environment
chained to the optional parent, run the statements, and return the last value
together with the resulting environment (an error drops the environment, as
the Rust `Result` does). -/
def evaluate (program : List Statement) (parent : Option Environment) :
    Except Error (Value × Environment) :=
  match evaluateProgramLoop program .noneV (Environment.new parent) with
  | (.ok v, env) => .ok (v, env)
  | (.error e, _) => .error e

/-- The tokenize-parse-evaluate pipeline over a source text (the `run`
function of `repl.rs` without the printing). -/
def runProgram (sourceCode : List Char) (parent : Option Environment) :
    Except Error (Value × Environment) := do
  let tokens ← tokenize sourceCode
  let program ← parse tokens
  evaluate program parent

/-! ## Definitions used only to state properties -/

/-- Tokenize then parse (the front-end half of the pipeline). -/
def tokenizeParse (sourceCode : List Char) : Except Error Program := do
  let tokens ← tokenize sourceCode
  parse tokens

/-- The substring (as a character list) of a source text at the half-open
span `[a, b)`. -/
def sourceSlice (s : List Char) (a b : Nat) : List Char := (s.drop a).take (b - a)

/-- Lexeme/span round-trip property of one token against a source text: a
non-string, non-eof token's lexeme is the exact source substring at its span;
a string token's lexeme is that substring with the two surrounding quote
positions excluded; the eof token's lexeme is the sentinel character. -/
def tokenRoundTrip (source : List Char) (t : Token) : Prop :=
  (t.kind ≠ .string → t.kind ≠ .eof →
    t.lexeme = sourceSlice source t.textSpan.startingIndex t.textSpan.endingIndex)
  ∧ (t.kind = .string →
    t.lexeme = sourceSlice source (t.textSpan.startingIndex + 1) (t.textSpan.endingIndex - 1))
  ∧ (t.kind = .eof → t.lexeme = ['\x00'])

/-- The twelve binary-operator token kinds handled by the parser's binary
precedence levels (logical, equality, comparison, additive, multiplicative). -/
def binaryOperatorKinds : List TokenKind :=
  [.doubleAmpersand, .doublePipe, .doubleEqual, .bangEqual,
   .greater, .lesser, .greaterOrEqual, .lesserOrEqual,
   .plus, .minus, .asterisk, .slash]

/-- The variable maps of an environment chain's frames, innermost first. -/
def Environment.frames : Environment → List (List (List Char × (Value × Bool)))
  | .root vs => [vs]
  | .child p vs => vs :: p.frames

/-! ## Helper lemmas -/

/-- Looking up a key right after inserting it finds the inserted value. -/
theorem mapGet_mapInsert_self {α : Type} (m : List (List Char × α)) (k : List Char)
    (v : α) : mapGet (mapInsert m k v) k = some v := by
  induction m with
  | nil => simp [mapInsert, mapGet]
  | cons kv rest ih =>
    obtain ⟨k2, w⟩ := kv
    by_cases h : k2 = k
    · simp [mapInsert, h, mapGet]
    · simp [mapInsert, h, mapGet, ih]

/-- `access` is the first match over the frames of the chain, innermost
first. -/
theorem Environment.access_eq_findSome (env : Environment) (name : List Char) :
    env.access name = (env.frames.findSome? (fun vs => mapGet vs name)).map Prod.fst := by
  induction env with
  | root vs => cases h : mapGet vs name <;> simp [Environment.access, Environment.frames, List.findSome?, h]
  | child p vs ih =>
    cases h : mapGet vs name with
    | none => simpa [Environment.access, Environment.frames, List.findSome?, h] using ih
    | some v => obtain ⟨v1, c1⟩ := v; simp [Environment.access, Environment.frames, List.findSome?, h]

/-- `is_constant` is the first match over the frames of the chain, innermost
first. -/
theorem Environment.isConstant_eq_findSome (env : Environment) (name : List Char) :
    env.isConstant name = (env.frames.findSome? (fun vs => mapGet vs name)).map Prod.snd := by
  induction env with
  | root vs => cases h : mapGet vs name <;> simp [Environment.isConstant, Environment.frames, List.findSome?, h]
  | child p vs ih =>
    cases h : mapGet vs name with
    | none => simpa [Environment.isConstant, Environment.frames, List.findSome?, h] using ih
    | some v => obtain ⟨v1, c1⟩ := v; simp [Environment.isConstant, Environment.frames, List.findSome?, h]

/-- Successful `Except` bind factors through a successful first component. -/
theorem bind_eq_ok {α β : Type} {x : Except Error α} {f : α → Except Error β} {y : β}
    (h : (x >>= f) = .ok y) : ∃ a, x = .ok a ∧ f a = .ok y := by
  cases x with
  | ok a => exact ⟨a, rfl, h⟩
  | error e => exact absurd h (by simp [Bind.bind, Except.bind])

/-- Dropping an extra `n` positions from a suffix drops `n` from its front. -/
theorem drop_shift (l rest : List Char) (i n : Nat) (h : l.drop i = rest) :
    l.drop (i + n) = rest.drop n := by
  subst h
  exact (List.drop_drop n i l).symm

/-- A consumed run of characters that contains no sentinel lies inside the
original source, and equals the source substring at its span. -/
theorem slice_of_consumed (source pfx rest2 : List Char) (i : Nat)
    (hdrop : (source ++ ['\x00']).drop i = pfx ++ rest2)
    (hnz : '\x00' ∉ pfx) :
    sourceSlice source i (i + pfx.length) = pfx := by
  by_cases hp : pfx = []
  · subst hp
    simp [sourceSlice]
  · have hlen' : i < (source ++ ['\x00']).length := by
      by_contra hle
      push_neg at hle
      rw [List.drop_eq_nil_of_le hle] at hdrop
      exact hp (List.append_eq_nil.mp hdrop.symm).1
    have hi : i ≤ source.length := by
      rw [List.length_append] at hlen'
      simp at hlen'
      omega
    rw [List.drop_append_of_le_length hi] at hdrop
    have hplen : pfx.length ≤ (source.drop i).length := by
      by_contra hgt
      push_neg at hgt
      have hlen2 : (source.drop i).length + 1 = pfx.length + rest2.length := by
        have h3 := congrArg List.length hdrop
        simpa using h3
      have hr0 : rest2.length = 0 := by omega
      have hr2 : rest2 = [] := List.length_eq_zero.mp hr0
      subst hr2
      rw [List.append_nil] at hdrop
      exact hnz (hdrop ▸ List.mem_append_right _ (List.mem_singleton.mpr rfl))
    have htake := congrArg (List.take pfx.length) hdrop
    rw [List.take_append_of_le_length hplen, List.take_left] at htake
    show (source.drop i).take (i + pfx.length - i) = pfx
    rw [Nat.add_sub_cancel_left]
    exact htake

/-- Decomposition of a successful string scan: the scanned characters are the
content followed by the closing quote, and the content contains no sentinel
character. -/
theorem strScan_ok (l : List Char) : ∀ content : List Char, strScan l = .ok content →
    l = content ++ '"' :: l.drop (content.length + 1)
    ∧ ∀ ch ∈ content, ch ≠ '\x00' := by
  induction l with
  | nil => intro content h; exact absurd h (by simp [strScan])
  | cons c rest ih =>
    intro content h
    by_cases hq : c = '"'
    · subst hq
      have h2 : strScan ('"' :: rest) = .ok [] := by simp [strScan]
      rw [h2] at h
      injection h with h3
      subst h3
      exact ⟨rfl, by simp⟩
    · by_cases hz : c = '\x00'
      · subst hz
        exact absurd h (by simp [strScan, hq])
      · cases hrec : strScan rest with
        | ok c2 =>
          have h2 : strScan (c :: rest) = .ok (c :: c2) := by
            simp [strScan, hq, hz, hrec]
          rw [h2] at h
          injection h with h3
          subst h3
          obtain ⟨ihl, ihz⟩ := ih c2 hrec
          constructor
          · show c :: rest = c :: (c2 ++ '"' :: rest.drop (c2.length + 1))
            exact congrArg (c :: ·) ihl
          · intro ch hch
            rcases List.mem_cons.mp hch with rfl | hmem
            · exact hz
            · exact ihz ch hmem
        | error k =>
          have h2 : strScan (c :: rest) = .error (k + 1) := by
            simp [strScan, hq, hz, hrec]
          rw [h2] at h
          exact Except.noConfusion h

/-- Round trip for a non-string, non-eof token whose lexeme is the span's
substring. -/
theorem rt_nonstring (source : List Char) (k : TokenKind) (lex : List Char) (a b : Nat)
    (hk1 : k ≠ .string) (hk2 : k ≠ .eof) (hlex : lex = sourceSlice source a b) :
    tokenRoundTrip source ⟨k, lex, ⟨a, b⟩⟩ :=
  ⟨fun _ _ => hlex, fun hs => absurd hs hk1, fun he => absurd he hk2⟩

/-- Round trip for the eof token. -/
theorem rt_eof (source : List Char) (a b : Nat) :
    tokenRoundTrip source ⟨.eof, ['\x00'], ⟨a, b⟩⟩ :=
  ⟨fun _ h2 => absurd rfl h2, nofun, fun _ => rfl⟩

/-- Round trip for a string token whose lexeme is the quoteless substring. -/
theorem rt_string (source content : List Char) (a b : Nat)
    (h : content = sourceSlice source (a + 1) (b - 1)) :
    tokenRoundTrip source ⟨.string, content, ⟨a, b⟩⟩ :=
  ⟨fun hs _ => absurd rfl hs, fun _ => h, nofun⟩

/-- The sentinel is not in a character run scanned by a predicate that
rejects it, prefixed by a non-sentinel character. -/
theorem not_mem_cons_run {c : Char} (p : Char → Bool) (rest : List Char)
    (hc : ¬ c = '\x00') (hp : p '\x00' = false) :
    '\x00' ∉ c :: rest.takeWhile p := by
  intro hmem
  rcases List.mem_cons.mp hmem with h | h
  · exact hc h.symm
  · have h2 := List.mem_takeWhile_imp h
    simp [hp] at h2

/-- Keyword classification never yields the string kind. -/
theorem getLexemeType_ne_string (l : List Char) : TokenKind.getLexemeType l ≠ .string := by
  unfold TokenKind.getLexemeType
  split_ifs <;> decide

/-- Keyword classification never yields the eof kind. -/
theorem getLexemeType_ne_eof (l : List Char) : TokenKind.getLexemeType l ≠ .eof := by
  unfold TokenKind.getLexemeType
  split_ifs <;> decide

/-- Slice and suffix bookkeeping for a token made of one character followed by
a scanned run: the lexeme is the substring at the token's span, and the input
that remains afterwards is the corresponding suffix of the extended source. -/
theorem run_case (source rest : List Char) (i : Nat) (c : Char) (p : Char → Bool)
    (hdrop : (source ++ ['\x00']).drop i = c :: rest)
    (hc : ¬ c = '\x00') (hp : p '\x00' = false) :
    sourceSlice source i (i + 1 + (rest.takeWhile p).length) = c :: rest.takeWhile p
    ∧ (source ++ ['\x00']).drop (i + 1 + (rest.takeWhile p).length) =
      rest.drop (rest.takeWhile p).length := by
  obtain ⟨suf, hsuf⟩ := List.takeWhile_prefix (p := p) (l := rest)
  have hdecomp : (source ++ ['\x00']).drop i = (c :: rest.takeWhile p) ++ suf := by
    rw [hdrop]
    exact congrArg (c :: ·) hsuf.symm
  have hnz : '\x00' ∉ c :: rest.takeWhile p := not_mem_cons_run p rest hc hp
  have hslice := slice_of_consumed source (c :: rest.takeWhile p) suf i hdecomp hnz
  have harith : i + 1 + (rest.takeWhile p).length = i + (c :: rest.takeWhile p).length := by
    simp only [List.length_cons]
    omega
  constructor
  · rw [harith]
    exact hslice
  · rw [harith]
    have hds := drop_shift _ _ i (c :: rest.takeWhile p).length hdecomp
    rw [hds.trans (List.drop_left _ _)]
    exact (List.drop_left _ _).symm.trans
      (congrArg (List.drop (rest.takeWhile p).length) hsuf)

/-- One scan-loop step that emits a single-character, non-string, non-eof
token and continues satisfies the round-trip property. -/
theorem single_char_case (source rest : List Char) (i : Nat) (c : Char) (k : TokenKind)
    (fuel : Nat) (tokens : List Token)
    (ih : ∀ (rem : List Char) (j : Nat) (tks : List Token),
      (source ++ ['\x00']).drop j = rem →
      tokenizeLoop fuel rem j = .ok tks →
      ∀ t ∈ tks, tokenRoundTrip source t)
    (hdrop : (source ++ ['\x00']).drop i = c :: rest)
    (hc : c ≠ '\x00') (hk1 : k ≠ .string) (hk2 : k ≠ .eof)
    (hrun : (do
        let ts ← tokenizeLoop fuel rest (i + 1)
        Except.ok (⟨k, [c], ⟨i, i + 1⟩⟩ :: ts)) = Except.ok tokens) :
    ∀ t ∈ tokens, tokenRoundTrip source t := by
  obtain ⟨ts, hrec, hcons⟩ := bind_eq_ok hrun
  injection hcons with hcons2
  subst hcons2
  intro t ht
  rcases List.mem_cons.mp ht with rfl | hmem
  · refine rt_nonstring source k [c] i (i + 1) hk1 hk2 ?_
    refine (slice_of_consumed source [c] rest i hdrop ?_).symm
    intro hm
    exact hc (List.mem_singleton.mp hm).symm
  · exact ih rest (i + 1) ts (drop_shift _ _ i 1 hdrop) hrec t hmem

/-- One scan-loop step that emits a two-character token and continues
satisfies the round-trip property. -/
theorem double_char_case (source rest2 : List Char) (i : Nat) (c c2 : Char)
    (k : TokenKind) (fuel : Nat) (tokens : List Token)
    (ih : ∀ (rem : List Char) (j : Nat) (tks : List Token),
      (source ++ ['\x00']).drop j = rem →
      tokenizeLoop fuel rem j = .ok tks →
      ∀ t ∈ tks, tokenRoundTrip source t)
    (hdrop : (source ++ ['\x00']).drop i = c :: c2 :: rest2)
    (hc : c ≠ '\x00') (hc2 : c2 ≠ '\x00') (hk1 : k ≠ .string) (hk2 : k ≠ .eof)
    (hrun : (do
        let ts ← tokenizeLoop fuel rest2 (i + 2)
        Except.ok (⟨k, [c, c2], ⟨i, i + 2⟩⟩ :: ts)) = Except.ok tokens) :
    ∀ t ∈ tokens, tokenRoundTrip source t := by
  obtain ⟨ts, hrec, hcons⟩ := bind_eq_ok hrun
  injection hcons with hcons2
  subst hcons2
  intro t ht
  rcases List.mem_cons.mp ht with rfl | hmem
  · refine rt_nonstring source k [c, c2] i (i + 2) hk1 hk2 ?_
    refine (slice_of_consumed source [c, c2] rest2 i hdrop ?_).symm
    intro hm
    rcases List.mem_cons.mp hm with h | h
    · exact hc h.symm
    · exact hc2 (List.mem_singleton.mp h).symm
  · exact ih rest2 (i + 2) ts (drop_shift _ _ i 2 hdrop) hrec t hmem

/-- Every token emitted by a successful run of the scan loop satisfies the
round-trip property, provided the loop's remaining input is the suffix of the
sentinel-extended source at the loop's index. -/
theorem tokenizeLoop_roundTrip (source : List Char) (fuel : Nat) :
    ∀ (rem : List Char) (i : Nat) (tokens : List Token),
      (source ++ ['\x00']).drop i = rem →
      tokenizeLoop fuel rem i = .ok tokens →
      ∀ t ∈ tokens, tokenRoundTrip source t := by
  induction fuel with
  | zero =>
    intro rem i tokens _ hrun
    exact absurd hrun (by simp [tokenizeLoop])
  | succ fuel ih =>
    intro rem i tokens hdrop hrun
    cases rem with
    | nil =>
      simp only [tokenizeLoop] at hrun
      injection hrun with h1
      subst h1
      intro t ht
      exact absurd ht (List.not_mem_nil t)
    | cons c rest =>
      simp only [tokenizeLoop] at hrun
      split at hrun
      · exact ih rest (i + 1) tokens (drop_shift _ _ i 1 hdrop) hrun
      · exact ih rest (i + 1) tokens (drop_shift _ _ i 1 hdrop) hrun
      · exact ih rest (i + 1) tokens (drop_shift _ _ i 1 hdrop) hrun
      · exact ih rest (i + 1) tokens (drop_shift _ _ i 1 hdrop) hrun
      · -- eof token
        obtain ⟨ts, hrec, hcons⟩ := bind_eq_ok hrun
        injection hcons with hcons2
        subst hcons2
        intro t ht
        rcases List.mem_cons.mp ht with rfl | hmem
        · exact rt_eof source i (i + 1)
        · exact ih rest (i + 1) ts (drop_shift _ _ i 1 hdrop) hrec t hmem
      · exact single_char_case source rest i ':' .colon fuel tokens ih hdrop
          (by decide) (by decide) (by decide) hrun
      · exact single_char_case source rest i ',' .comma fuel tokens ih hdrop
          (by decide) (by decide) (by decide) hrun
      · exact single_char_case source rest i '.' .dot fuel tokens ih hdrop
          (by decide) (by decide) (by decide) hrun
      · exact single_char_case source rest i '(' .openParen fuel tokens ih hdrop
          (by decide) (by decide) (by decide) hrun
      · exact single_char_case source rest i ')' .closeParen fuel tokens ih hdrop
          (by decide) (by decide) (by decide) hrun
      · exact single_char_case source rest i '{' .openBrace fuel tokens ih hdrop
          (by decide) (by decide) (by decide) hrun
      · exact single_char_case source rest i '}' .closeBrace fuel tokens ih hdrop
          (by decide) (by decide) (by decide) hrun
      · exact single_char_case source rest i '+' .plus fuel tokens ih hdrop
          (by decide) (by decide) (by decide) hrun
      · exact single_char_case source rest i '-' .minus fuel tokens ih hdrop
          (by decide) (by decide) (by decide) hrun
      · exact single_char_case source rest i '*' .asterisk fuel tokens ih hdrop
          (by decide) (by decide) (by decide) hrun
      · -- slash: comment or slash token
        split at hrun
        · exact ih _ _ tokens
            (drop_shift _ _ (i + 1) _ (drop_shift _ _ i 1 hdrop)) hrun
        · exact single_char_case source rest i '/' .slash fuel tokens ih hdrop
            (by decide) (by decide) (by decide) hrun
      · split at hrun
        · exact double_char_case source _ i '&' '&' .doubleAmpersand fuel tokens ih hdrop
            (by decide) (by decide) (by decide) (by decide) hrun
        · exact single_char_case source rest i '&' .ampersand fuel tokens ih hdrop
            (by decide) (by decide) (by decide) hrun
      · split at hrun
        · exact double_char_case source _ i '|' '|' .doublePipe fuel tokens ih hdrop
            (by decide) (by decide) (by decide) (by decide) hrun
        · exact single_char_case source rest i '|' .pipe fuel tokens ih hdrop
            (by decide) (by decide) (by decide) hrun
      · split at hrun
        · exact double_char_case source _ i '=' '=' .doubleEqual fuel tokens ih hdrop
            (by decide) (by decide) (by decide) (by decide) hrun
        · exact single_char_case source rest i '=' .equal fuel tokens ih hdrop
            (by decide) (by decide) (by decide) hrun
      · split at hrun
        · exact double_char_case source _ i '!' '=' .bangEqual fuel tokens ih hdrop
            (by decide) (by decide) (by decide) (by decide) hrun
        · exact single_char_case source rest i '!' .bang fuel tokens ih hdrop
            (by decide) (by decide) (by decide) hrun
      · split at hrun
        · exact double_char_case source _ i '>' '=' .greaterOrEqual fuel tokens ih hdrop
            (by decide) (by decide) (by decide) (by decide) hrun
        · exact single_char_case source rest i '>' .greater fuel tokens ih hdrop
            (by decide) (by decide) (by decide) hrun
      · split at hrun
        · exact double_char_case source _ i '<' '=' .lesserOrEqual fuel tokens ih hdrop
            (by decide) (by decide) (by decide) (by decide) hrun
        · exact single_char_case source rest i '<' .lesser fuel tokens ih hdrop
            (by decide) (by decide) (by decide) hrun
      · -- string literal
        split at hrun
        · next content heq =>
          obtain ⟨hldecomp, hnzc⟩ := strScan_ok rest content heq
          obtain ⟨ts, hrec, hcons⟩ := bind_eq_ok hrun
          injection hcons with hcons2
          subst hcons2
          intro t ht
          rcases List.mem_cons.mp ht with rfl | hmem
          · refine rt_string source content i (i + 1 + (content.length + 1)) ?_
            have hdrop1 : (source ++ ['\x00']).drop (i + 1) =
                content ++ '"' :: rest.drop (content.length + 1) :=
              (drop_shift _ _ i 1 hdrop).trans hldecomp
            have hslice := slice_of_consumed source content
              ('"' :: rest.drop (content.length + 1)) (i + 1) hdrop1
              (fun hm => hnzc '\x00' hm rfl)
            have harith : i + 1 + (content.length + 1) - 1 = i + 1 + content.length := by
              omega
            rw [harith]
            exact hslice.symm
          · refine ih (rest.drop (content.length + 1)) (i + 1 + (content.length + 1))
              ts ?_ hrec t hmem
            exact drop_shift _ _ (i + 1) (content.length + 1) (drop_shift _ _ i 1 hdrop)
        · exact Except.noConfusion hrun
      · -- identifier / number / invalid character
        rename_i hws1 hws2 hws3 hws4 hz hcolon hcomma hdot hop hcp hob hcb hplus hminus
          hast hslash hamp hpipe heq2 hbang hgt hlt hquote
        split at hrun
        · next hid =>
          rcases run_case source rest i c isIdentCont hdrop hz (by decide) with
            ⟨hslice, hdropnext⟩
          obtain ⟨ts, hrec, hcons⟩ := bind_eq_ok hrun
          injection hcons with hcons2
          subst hcons2
          intro t ht
          rcases List.mem_cons.mp ht with rfl | hmem
          · exact rt_nonstring source _ _ _ _ (getLexemeType_ne_string _)
              (getLexemeType_ne_eof _) hslice.symm
          · exact ih _ _ ts hdropnext hrec t hmem
        · split at hrun
          · next hdig =>
            rcases run_case source rest i c isNumberCont hdrop hz (by decide) with
              ⟨hslice, hdropnext⟩
            obtain ⟨ts, hrec, hcons⟩ := bind_eq_ok hrun
            injection hcons with hcons2
            subst hcons2
            intro t ht
            rcases List.mem_cons.mp ht with rfl | hmem
            · exact rt_nonstring source _ _ _ _ (by decide) (by decide) hslice.symm
            · exact ih _ _ ts hdropnext hrec t hmem
          · exact Except.noConfusion hrun

/-- Appending one statement to a program that evaluates successfully: the
loop result is the last statement's evaluation in the accumulated
environment. -/
theorem evaluateProgramLoop_append (stmts : List Statement) (s : Statement)
    (v0 v1 : Value) (env env1 : Environment)
    (h : evaluateProgramLoop stmts v0 env = (.ok v1, env1)) :
    evaluateProgramLoop (stmts ++ [s]) v0 env = evaluateStatement s env1 := by
  induction stmts generalizing v0 env with
  | nil =>
    simp only [evaluateProgramLoop] at h
    obtain ⟨h1, h2⟩ := Prod.mk.injEq .. ▸ h
    cases h1; cases h2
    simp only [List.nil_append, evaluateProgramLoop]
    cases hs : evaluateStatement s env1 with
    | mk r env2 => cases r <;> simp [evaluateProgramLoop]
  | cons st rest ih =>
    simp only [evaluateProgramLoop] at h ⊢
    cases hst : evaluateStatement st env with
    | mk r env2 =>
      cases r with
      | ok v => rw [hst] at h; exact ih _ _ h
      | error e => rw [hst] at h; simp at h

/-! ## Claim theorems -/

/-- Claim C1: chains of the same binary operator at one precedence level
associate right-to-left. For any of the twelve binary operator kinds and any
token payloads, parsing `a op b op c` nests the right operand; and concretely,
tokenizing and parsing `5 - 3 - 1` produces the tree `5 - (3 - 1)`, whose
evaluation yields the number 3, not 1. -/
theorem claim1_same_level_chains_associate_right
    (opk : TokenKind) (la lb lc lo1 lo2 le : List Char)
    (sa s1 sb s2 sc se : TextSpan) (hop : opk ∈ binaryOperatorKinds) :
    parse [⟨.identifier, la, sa⟩, ⟨opk, lo1, s1⟩, ⟨.identifier, lb, sb⟩,
        ⟨opk, lo2, s2⟩, ⟨.identifier, lc, sc⟩, ⟨.eof, le, se⟩] =
      .ok [.exprStmt (.binary (.identifier ⟨.identifier, la, sa⟩) ⟨opk, lo1, s1⟩
        (.binary (.identifier ⟨.identifier, lb, sb⟩) ⟨opk, lo2, s2⟩
          (.identifier ⟨.identifier, lc, sc⟩)))]
    ∧ tokenizeParse "5 - 3 - 1".toList =
      .ok [.exprStmt (.binary (.numeric ⟨.number, ['5'], ⟨0, 1⟩⟩ 5) ⟨.minus, ['-'], ⟨2, 3⟩⟩
        (.binary (.numeric ⟨.number, ['3'], ⟨4, 5⟩⟩ 3) ⟨.minus, ['-'], ⟨6, 7⟩⟩
          (.numeric ⟨.number, ['1'], ⟨8, 9⟩⟩ 1)))]
    ∧ (runProgram "5 - 3 - 1".toList Option.none).map Prod.fst = .ok (.number 3)
    ∧ (runProgram "5 - 3 - 1".toList Option.none).map Prod.fst ≠ .ok (.number 1) := by
  refine ⟨?_, rfl, rfl, ?_⟩
  · fin_cases hop <;> rfl
  · intro h
    have h2 : (Except.ok (Value.number 3) : Except Error Value) = .ok (.number 1) := h
    injection h2 with h3
    injection h3 with h4
    injection h4 with h5 h6
    exact absurd h5 (by decide)

/-- Witness for C1 at the `-` operator with concrete identifier tokens. -/
theorem claim1_witness :
    parse [⟨.identifier, ['a'], ⟨0, 1⟩⟩, ⟨.minus, ['-'], ⟨2, 3⟩⟩,
        ⟨.identifier, ['b'], ⟨4, 5⟩⟩, ⟨.minus, ['-'], ⟨6, 7⟩⟩,
        ⟨.identifier, ['c'], ⟨8, 9⟩⟩, ⟨.eof, ['\x00'], ⟨9, 10⟩⟩] =
      .ok [.exprStmt (.binary (.identifier ⟨.identifier, ['a'], ⟨0, 1⟩⟩) ⟨.minus, ['-'], ⟨2, 3⟩⟩
        (.binary (.identifier ⟨.identifier, ['b'], ⟨4, 5⟩⟩) ⟨.minus, ['-'], ⟨6, 7⟩⟩
          (.identifier ⟨.identifier, ['c'], ⟨8, 9⟩⟩)))] :=
  (claim1_same_level_chains_associate_right .minus ['a'] ['b'] ['c'] ['-'] ['-'] ['\x00']
    ⟨0, 1⟩ ⟨2, 3⟩ ⟨4, 5⟩ ⟨6, 7⟩ ⟨8, 9⟩ ⟨9, 10⟩ (by decide)).1

/-- Claim C2, evaluated at the failing input `1..2`: the lexer's numeric rule
emits `1..2` as a single Number token, float parsing rejects that lexeme
(`parseNumberValue` returns none, modelling `Err` from `str::parse::<f64>`),
and the parser's numeric-literal case therefore hits its `.unwrap()` panic
(modelled as the `unwrapFailure` error) — refuting the claim that parsing
succeeds for every lexer-accepted numeric lexeme. -/
theorem claim2_numeric_unwrap_panics_on_double_dot :
    tokenize "1..2".toList =
      .ok [⟨.number, "1..2".toList, ⟨0, 4⟩⟩, ⟨.eof, ['\x00'], ⟨4, 5⟩⟩]
    ∧ parseNumberValue "1..2".toList = Option.none
    ∧ tokenizeParse "1..2".toList = .error unwrapFailure :=
  ⟨rfl, rfl, rfl⟩

/-- Counterexample to claim C3 as stated: for the source `"a"` the string
token's stored lexeme is `a` without the quotes, while the source substring at
its reported span `[0, 3)` is `"a"` with the quotes — so not every token's
lexeme equals the substring at its span. -/
theorem claim3_counterexample :
    tokenize "\"a\"".toList =
      .ok [⟨.string, ['a'], ⟨0, 3⟩⟩, ⟨.eof, ['\x00'], ⟨3, 4⟩⟩]
    ∧ sourceSlice "\"a\"".toList 0 3 = ['"', 'a', '"']
    ∧ (⟨.string, ['a'], ⟨0, 3⟩⟩ : Token).lexeme ≠ sourceSlice "\"a\"".toList 0 3 :=
  ⟨rfl, rfl, by decide⟩

/-- Claim C3 (amended): for every source text on which `tokenize` succeeds
and every token of its output, a token that is neither a string token nor the
end-of-input token stores exactly the source substring at its span; a string
token stores the substring at its span minus the two surrounding quote
positions; and the end-of-input token stores the sentinel character. -/
theorem claim3_token_lexeme_matches_span (source : List Char) (tokens : List Token)
    (h : tokenize source = .ok tokens) : ∀ t ∈ tokens, tokenRoundTrip source t :=
  tokenizeLoop_roundTrip source (source.length + 2) (source ++ ['\x00']) 0 tokens rfl h

/-- Witness for the amended C3 at the one-character source `a`. -/
theorem claim3_witness :
    tokenRoundTrip "a".toList ⟨.identifier, ['a'], ⟨0, 1⟩⟩ :=
  claim3_token_lexeme_matches_span "a".toList
    [⟨.identifier, ['a'], ⟨0, 1⟩⟩, ⟨.eof, ['\x00'], ⟨1, 2⟩⟩] rfl
    ⟨.identifier, ['a'], ⟨0, 1⟩⟩ (List.mem_cons_self _ _)

/-- Claim C4: `&&` and `||` do not short-circuit. Whenever the left operand
evaluates to the boolean that would allow short-circuiting (`false` for `&&`,
`true` for `||`) and the right operand's evaluation fails, the binary
expression fails with the right operand's error; concretely `false && x` and
`true || x` fail with the undefined-variable error for `x`. -/
theorem claim4_logical_operators_not_short_circuiting
    (l r : Expression) (op : Token) (env env1 env2 : Environment) (er : Error) :
    (op.kind = .doubleAmpersand →
      evaluateExpression l env = (.ok (.boolean false), env1) →
      evaluateExpression r env1 = (.error er, env2) →
      evaluateExpression (.binary l op r) env = (.error er, env2))
    ∧ (op.kind = .doublePipe →
      evaluateExpression l env = (.ok (.boolean true), env1) →
      evaluateExpression r env1 = (.error er, env2) →
      evaluateExpression (.binary l op r) env = (.error er, env2))
    ∧ runProgram "false && x".toList Option.none =
        .error ⟨"Can't access the variable 'x' as it's not defined", ⟨9, 10⟩⟩
    ∧ runProgram "true || x".toList Option.none =
        .error ⟨"Can't access the variable 'x' as it's not defined", ⟨8, 9⟩⟩ := by
  refine ⟨?_, ?_, rfl, rfl⟩ <;> intro hk hl hr <;> simp [evaluateExpression, hl, hr]

/-- Witness for C4: `false && x` in a fresh environment, where `x` is
undefined. -/
theorem claim4_witness :
    evaluateExpression (.binary (.boolean ⟨.falseKw, "false".toList, ⟨0, 5⟩⟩ false)
        ⟨.doubleAmpersand, "&&".toList, ⟨6, 8⟩⟩ (.identifier ⟨.identifier, ['x'], ⟨9, 10⟩⟩))
      (Environment.new Option.none) =
      (.error ⟨"Can't access the variable 'x' as it's not defined", ⟨9, 10⟩⟩,
        Environment.new Option.none) :=
  (claim4_logical_operators_not_short_circuiting
    (.boolean ⟨.falseKw, "false".toList, ⟨0, 5⟩⟩ false)
    (.identifier ⟨.identifier, ['x'], ⟨9, 10⟩⟩)
    ⟨.doubleAmpersand, "&&".toList, ⟨6, 8⟩⟩
    (Environment.new Option.none) (Environment.new Option.none) (Environment.new Option.none)
    ⟨"Can't access the variable 'x' as it's not defined", ⟨9, 10⟩⟩).1 rfl rfl rfl

/-- Claim C5: assignment semantics. An assignment fails with the
"not defined" error when the target is unbound in the whole chain, fails with
the constant-reassignment error when the first binding found is constant, and
otherwise evaluates the right-hand side, rebinds the target as mutable in the
innermost frame and returns the value. Concretely: `let a = 2.71` yields
`none` and an environment where `a` is `2.71`; `a = 5` against it yields `5`;
`const a = 2.71` followed by `a = 5` fails with the constant error. -/
theorem claim5_assignment_semantics :
    (∀ (it : Token) (e : Expression) (env : Environment),
      (env.isConstant it.lexeme = Option.none →
        evaluateExpression (.assignment it e) env =
          (.error ⟨"Can't assign to the variable '" ++ String.mk it.lexeme ++
            "' as it's not defined", (Expression.assignment it e).textSpan⟩, env))
      ∧ (env.isConstant it.lexeme = some true →
        evaluateExpression (.assignment it e) env =
          (.error ⟨"Can't assign the variable '" ++ String.mk it.lexeme ++
            "' as it's a constant", (Expression.assignment it e).textSpan⟩, env))
      ∧ (env.isConstant it.lexeme = some false →
        evaluateExpression (.assignment it e) env =
          (match evaluateExpression e env with
           | (.ok v, env1) => (.ok v, env1.define it.lexeme v false)
           | (.error er, env1) => (.error er, env1))))
    ∧ runProgram "let a = 2.71".toList Option.none =
        .ok (.noneV, (Environment.new Option.none).define "a".toList (.number ⟨271, 100⟩) false)
    ∧ (runProgram "a".toList (some ((Environment.new Option.none).define "a".toList
        (.number ⟨271, 100⟩) false))).map Prod.fst = .ok (.number ⟨271, 100⟩)
    ∧ (runProgram "a = 5".toList (some ((Environment.new Option.none).define "a".toList
        (.number ⟨271, 100⟩) false))).map Prod.fst = .ok (.number 5)
    ∧ runProgram "const a = 2.71".toList Option.none =
        .ok (.noneV, (Environment.new Option.none).define "a".toList (.number ⟨271, 100⟩) true)
    ∧ runProgram "a = 5".toList (some ((Environment.new Option.none).define "a".toList
        (.number ⟨271, 100⟩) true)) =
        .error ⟨"Can't assign the variable 'a' as it's a constant", ⟨0, 5⟩⟩ := by
  refine ⟨?_, rfl, rfl, rfl, rfl, rfl⟩
  intro it e env
  refine ⟨fun h => ?_, fun h => ?_, fun h => ?_⟩ <;> simp [evaluateExpression, h]

/-- Witness for C5 at the constant-reassignment case: assigning to the
builtin constant `fns` in a fresh environment fails. -/
theorem claim5_witness :
    evaluateExpression (.assignment ⟨.identifier, "fns".toList, ⟨0, 3⟩⟩
        (.noneLit ⟨.noneKw, "none".toList, ⟨6, 10⟩⟩)) (Environment.new Option.none) =
      (.error ⟨"Can't assign the variable 'fns' as it's a constant", ⟨0, 10⟩⟩,
        Environment.new Option.none) :=
  (claim5_assignment_semantics.1 ⟨.identifier, "fns".toList, ⟨0, 3⟩⟩
    (.noneLit ⟨.noneKw, "none".toList, ⟨6, 10⟩⟩) (Environment.new Option.none)).2.1 rfl

/-- Claim C6: division. When both operands of `/` evaluate to numbers, the
expression fails with the division-by-zero error exactly when the right value
equals 0, and otherwise yields the quotient; concretely `5 / 0` fails with
that error, and `5 + 5 * 2 / 5 - 2` evaluates to the number 5. -/
theorem claim6_division :
    (∀ (l r : Expression) (op : Token) (env env1 env2 : Environment) (p q : Number),
      op.kind = .slash →
      evaluateExpression l env = (.ok (.number p), env1) →
      evaluateExpression r env1 = (.ok (.number q), env2) →
      evaluateExpression (.binary l op r) env =
        (if Number.beq q 0 then
          (.error ⟨"Can't divide by 0", (Expression.binary l op r).textSpan⟩, env2)
        else (.ok (.number (p.div q)), env2)))
    ∧ runProgram "5 / 0".toList Option.none = .error ⟨"Can't divide by 0", ⟨0, 5⟩⟩
    ∧ (runProgram "5 + 5 * 2 / 5 - 2".toList Option.none).map Prod.fst = .ok (.number 5) := by
  refine ⟨?_, rfl, rfl⟩
  intro l r op env env1 env2 p q hk hl hr
  simp [evaluateExpression, hk, hl, hr]

/-- Witness for C6: `5 / 0` at the expression level fails with the
division-by-zero error. -/
theorem claim6_witness :
    evaluateExpression (.binary (.numeric ⟨.number, ['5'], ⟨0, 1⟩⟩ 5)
        ⟨.slash, ['/'], ⟨2, 3⟩⟩ (.numeric ⟨.number, ['0'], ⟨4, 5⟩⟩ 0))
      (Environment.new Option.none) =
      (.error ⟨"Can't divide by 0", ⟨0, 5⟩⟩, Environment.new Option.none) :=
  (claim6_division.1 (.numeric ⟨.number, ['5'], ⟨0, 1⟩⟩ 5)
    (.numeric ⟨.number, ['0'], ⟨4, 5⟩⟩ 0) ⟨.slash, ['/'], ⟨2, 3⟩⟩
    (Environment.new Option.none) (Environment.new Option.none) (Environment.new Option.none)
    5 0 rfl rfl rfl).trans (if_pos (by decide))

/-- Claim C7: the environment contract. `define` followed by `access` and
`is_constant` on the same name returns the defined value and flag (even over
a prior constant binding); `access` and `is_constant` are the first match
over the chain's frames walking innermost to root; and `access` is absent
exactly when the name is unbound in every frame of the chain. -/
theorem claim7_environment_contract (env : Environment) (name : List Char)
    (v : Value) (c : Bool) :
    ((env.define name v c).access name = some v
      ∧ (env.define name v c).isConstant name = some c)
    ∧ env.access name = (env.frames.findSome? (fun vs => mapGet vs name)).map Prod.fst
    ∧ env.isConstant name = (env.frames.findSome? (fun vs => mapGet vs name)).map Prod.snd
    ∧ (env.access name = Option.none ↔ ∀ vs ∈ env.frames, mapGet vs name = Option.none) := by
  refine ⟨⟨?_, ?_⟩, Environment.access_eq_findSome env name,
    Environment.isConstant_eq_findSome env name, ?_⟩
  · cases env <;> simp [Environment.define, Environment.access, mapGet_mapInsert_self]
  · cases env <;> simp [Environment.define, Environment.isConstant, mapGet_mapInsert_self]
  · rw [Environment.access_eq_findSome]
    cases hf : env.frames.findSome? (fun vs => mapGet vs name) with
    | none =>
      exact ⟨fun _ => List.findSome?_eq_none_iff.mp hf, fun _ => rfl⟩
    | some p =>
      constructor
      · intro hmap
        exact Option.noConfusion hmap
      · intro hall
        have h0 := List.findSome?_eq_none_iff.mpr hall
        rw [hf] at h0
        exact Option.noConfusion h0

/-- Witness for C7: define-then-access on a concrete fresh environment. -/
theorem claim7_witness :
    ((Environment.new Option.none).define "a".toList Value.noneV false).access "a".toList =
      some Value.noneV :=
  (claim7_environment_contract (Environment.new Option.none) "a".toList Value.noneV false).1.1

/-- Claim C8: failed assignments are atomic. When the target identifier is
unbound in the chain, or its first-found binding is constant, the assignment
returns the corresponding error with the environment unchanged — and this
holds for every right-hand side expression `e` whatsoever, so the right-hand
side is never evaluated (its evaluation could otherwise have mutated the
environment or produced a different error). -/
theorem claim8_assignment_failure_is_atomic (it : Token) (e : Expression)
    (env : Environment) :
    (env.isConstant it.lexeme = Option.none →
      evaluateExpression (.assignment it e) env =
        (.error ⟨"Can't assign to the variable '" ++ String.mk it.lexeme ++
          "' as it's not defined", (Expression.assignment it e).textSpan⟩, env))
    ∧ (env.isConstant it.lexeme = some true →
      evaluateExpression (.assignment it e) env =
        (.error ⟨"Can't assign the variable '" ++ String.mk it.lexeme ++
          "' as it's a constant", (Expression.assignment it e).textSpan⟩, env)) := by
  constructor <;> intro h <;> simp [evaluateExpression, h]

/-- Witness for C8 at the unbound case: assigning to undefined `x` in a fresh
environment errors and returns that same environment. -/
theorem claim8_witness :
    evaluateExpression (.assignment ⟨.identifier, ['x'], ⟨0, 1⟩⟩
        (.noneLit ⟨.noneKw, "none".toList, ⟨4, 8⟩⟩)) (Environment.new Option.none) =
      (.error ⟨"Can't assign to the variable 'x' as it's not defined", ⟨0, 8⟩⟩,
        Environment.new Option.none) :=
  (claim8_assignment_failure_is_atomic ⟨.identifier, ['x'], ⟨0, 1⟩⟩
    (.noneLit ⟨.noneKw, "none".toList, ⟨4, 8⟩⟩) (Environment.new Option.none)).1 rfl

/-- Claim C9: `Environment::new` seeds the builtin bindings `fns` and `math`,
both constant, into every newly created frame — for every optional parent,
including the fresh innermost frame of each top-level `evaluate` call — so
they shadow same-named bindings of any parent (concretely, evaluating `fns`
under a parent that rebinds `fns` still yields the builtin object). -/
theorem claim9_builtins_seeded_in_every_frame (parent : Option Environment) :
    (Environment.new parent).vars = builtinVariables
    ∧ (Environment.new parent).access "fns".toList =
        some (Value.object (mapFromPairs [("version".toList, Value.stringV "0.0.1".toList)]))
    ∧ (Environment.new parent).isConstant "fns".toList = some true
    ∧ (Environment.new parent).access "math".toList =
        some (Value.object (mapFromPairs
          [("pi".toList, Value.number f64PI), ("e".toList, Value.number f64E)]))
    ∧ (Environment.new parent).isConstant "math".toList = some true
    ∧ (runProgram "fns".toList (some ((Environment.new Option.none).define "fns".toList
        Value.noneV false))).map Prod.fst =
        .ok (Value.object (mapFromPairs [("version".toList, Value.stringV "0.0.1".toList)])) := by
  cases parent <;> exact ⟨rfl, rfl, rfl, rfl, rfl, rfl⟩

/-- Witness for C9: the `math` builtin is constant in a concrete fresh root
environment. -/
theorem claim9_witness :
    (Environment.new Option.none).isConstant "math".toList = some true :=
  (claim9_builtins_seeded_in_every_frame Option.none).2.2.2.2.1

/-- Claim C10: for every optional parent, `evaluate` on the empty program
succeeds with the value `none` and the fresh environment chained to that
parent; and when every statement succeeds, the result value is that of the
last statement. -/
theorem claim10_evaluate_empty_and_last_statement :
    (∀ parent : Option Environment,
      evaluate [] parent = .ok (.noneV, Environment.new parent))
    ∧ (∀ (stmts : List Statement) (s : Statement) (v0 v1 : Value)
        (env env1 : Environment),
        evaluateProgramLoop stmts v0 env = (.ok v1, env1) →
        evaluateProgramLoop (stmts ++ [s]) v0 env = evaluateStatement s env1)
    ∧ (∀ (parent : Option Environment) (stmts : List Statement) (s : Statement)
        (v1 : Value) (env1 : Environment),
        evaluateProgramLoop stmts Value.noneV (Environment.new parent) = (.ok v1, env1) →
        evaluate (stmts ++ [s]) parent =
          (match evaluateStatement s env1 with
           | (.ok v, env2) => .ok (v, env2)
           | (.error e, _) => .error e)) := by
  refine ⟨fun parent => rfl,
    fun stmts s v0 v1 env env1 h => evaluateProgramLoop_append stmts s v0 v1 env env1 h, ?_⟩
  intro parent stmts s v1 env1 h
  have h2 := evaluateProgramLoop_append stmts s Value.noneV v1 (Environment.new parent) env1 h
  have h3 : evaluate (stmts ++ [s]) parent =
      (match evaluateProgramLoop (stmts ++ [s]) Value.noneV (Environment.new parent) with
       | (.ok v, env) => .ok (v, env)
       | (.error e, _) => .error e) := rfl
  rw [h3, h2]

/-- Witness for C10: a one-statement program's loop result is that
statement's evaluation. -/
theorem claim10_witness :
    evaluateProgramLoop [Statement.exprStmt (.noneLit ⟨.noneKw, "none".toList, ⟨0, 4⟩⟩)]
      Value.noneV (Environment.new Option.none) =
      evaluateStatement (Statement.exprStmt (.noneLit ⟨.noneKw, "none".toList, ⟨0, 4⟩⟩))
        (Environment.new Option.none) :=
  claim10_evaluate_empty_and_last_statement.2.1 []
    (Statement.exprStmt (.noneLit ⟨.noneKw, "none".toList, ⟨0, 4⟩⟩))
    Value.noneV Value.noneV (Environment.new Option.none) (Environment.new Option.none) rfl

end Fns
